import Mathlib

/-!
Verification of the wallet-ledger and webhook-reconciliation core of the
Airticks event-ticketing backend (`server.js`).

Modelling conventions, applied uniformly:
* JavaScript numbers holding money are modelled as `ℚ` with exact decimal
  semantics; `x.toFixed(2)` (followed by `Number(...)`) is modelled as
  rounding half-up at two decimal places (`toFixed2`).  Amounts arriving
  from Paystack (`amount`, `total_amount`) are integers in minor units
  (kobo) and are modelled as `ℕ`; the code immediately divides by 100 and
  works in major units (naira) thereafter, and so does the model.
* Firestore collections are modelled inside a `DB` record.  Documents whose
  numeric fields are always read through `|| 0` (wallets) are modelled as a
  total function `String → Wallet` whose fields default to `0` — a missing
  document or field is observationally equal to a zero field.  Collections
  whose existence is tested (`events`, `subaccounts`) are modelled as
  `String → Option _`.  Auto-id collections (`tickets`,
  `wallet_transactions`) are modelled as lists; `wallet_transactions`
  documents are only ever created by `.add`/`tx.set` on a fresh doc, which
  the model renders as list append.
* Server timestamps (`createdAt`, `updatedAt`, `lastPaidAt`, `paidAt`) are
  metadata never read back by the core logic and are omitted.
* A Firestore `runTransaction` either applies the whole write set or, on
  failure, applies nothing and throws (the webhook's `catch` then answers
  500).  The model exposes this as a `commit : Bool` parameter on the
  charge handler: `commit = true` is a committed transaction, `commit =
  false` an aborted one.
-/

/-! ## Revenue splitter (`server.js:268-270`)

`paidAmount = amount / 100`,
`platformFee = Number((paidAmount * 0.08).toFixed(2))`,
`organizerAmount = paidAmount - platformFee`. -/

/-- Model of JavaScript `Number(x.toFixed(2))`: round half-up at two decimal
places.  (Mathlib's `round` is `⌊x + 1/2⌋`, i.e. half-up; for the values
produced here exact ties at the third decimal are impossible, since
`8 * g / 100` has fractional part a multiple of `1/25`.) -/
def toFixed2 (x : ℚ) : ℚ := (round (x * 100) : ℤ) / 100

/-- `const paidAmount = amount / 100` — gross amount in naira (major units),
from the webhook's integer kobo amount. -/
def paidAmount (amountKobo : ℕ) : ℚ := (amountKobo : ℚ) / 100

/-- `const platformFee = Number((paidAmount * 0.08).toFixed(2))`. -/
def platformFee (amountKobo : ℕ) : ℚ := toFixed2 (paidAmount amountKobo * (8 / 100))

/-- `const organizerAmount = paidAmount - platformFee` — the organizer net is
derived from the fee, never computed independently. -/
def organizerAmount (amountKobo : ℕ) : ℚ :=
  paidAmount amountKobo - platformFee amountKobo

/-! ## Data model (Firestore documents used by the core) -/

/-- A `wallets/{id}` document.  Every numeric field is read through
`|| 0` in the source, so a missing document or field is observationally a
zero field; the model therefore uses total fields defaulting to `0`. -/
structure Wallet where
  balance : ℚ := 0
  pendingBalance : ℚ := 0
  settledBalance : ℚ := 0
  totalEarned : ℚ := 0
deriving DecidableEq

/-- An `events/{id}` document (the fields the webhook reads and writes). -/
structure EventDoc where
  ownerId : String
  name : String
  ticketSold : ℕ := 0
  grossRevenue : ℚ := 0
  organizerRevenue : ℚ := 0
  platformRevenue : ℚ := 0
deriving DecidableEq

/-- The `metadata` object echoed back by Paystack inside a `charge.success`
payload.  `eventId` is `Option` because the handler guards on
`!metadata?.eventId`. -/
structure Meta where
  eventId : Option String
  ticketNumber : ℕ
  fullName : Option String := none
deriving DecidableEq

/-- The `payload.data` of a `charge.success` event: external reference,
gross `amount` in integer minor units (kobo), customer, metadata. -/
structure ChargeData where
  reference : String
  amount : ℕ
  customerEmail : String
  customerName : Option String := none
  metadata : Option Meta
deriving DecidableEq

/-- A `tickets/{autoId}` document as created by the webhook transaction
(`server.js:345-356`); `qr` is attached by a separate post-commit update
(`server.js:372`), hence `Option`. -/
structure Ticket where
  id : ℕ
  reference : String
  eventId : String
  eventName : String
  ticketNumber : ℕ
  amount : ℚ
  status : String
  used : Bool
  email : String
  buyerName : String
  qr : Option String := none
deriving DecidableEq

/-- A `wallet_transactions` ledger document.  One constructor per writer:
`ticket_sale` (`server.js:377-387`), `settlement` (`server.js:625-635`),
`platform_withdrawal` (`server.js:877-884`); each carries the fields that
writer stores. -/
inductive LedgerEntry where
  | ticketSale (reference eventId eventName organizerId : String)
      (grossAmount fee net : ℚ)
  | settlement (organizerId reference : String) (amount grossAmount : ℚ)
  | platformWithdrawal (amount : ℚ) (adminId : String)
deriving DecidableEq

/-- One settlement object from Paystack's settlement-listing API, as read
at `server.js:573-581`. -/
structure Settlement where
  status : String
  paidAt : Option ℕ
  subaccountCode : Option String
  id : ℕ
  totalAmount : ℕ
deriving DecidableEq

/-- The persistent state: the Firestore collections the core touches. -/
structure DB where
  wallets : String → Wallet
  events : String → Option EventDoc
  subaccounts : String → Option String
  tickets : List Ticket
  ledger : List LedgerEntry
  nextTicketId : ℕ

/-! ## Charge webhook path (`POST /api/webhook/paystack`, `server.js:236-544`) -/

/-- The ticket document created inside the charge transaction
(`server.js:345-356`): `status: "success"`, `used: false`, no QR payload
yet; the buyer name falls back from `metadata.fullName` through
`customer.name` to `"Guest"`. -/
def chargeTicket (db : DB) (d : ChargeData) (md : Meta) (eid : String)
    (ev : EventDoc) : Ticket :=
  { id := db.nextTicketId,
    reference := d.reference,
    eventId := eid,
    eventName := ev.name,
    ticketNumber := md.ticketNumber,
    amount := paidAmount d.amount,
    status := "success",
    used := false,
    email := d.customerEmail,
    buyerName := (md.fullName.orElse fun _ => d.customerName).getD ("Guest"),
    qr := none }

/-- The body of `db.runTransaction` for `charge.success`
(`server.js:301-357`): credit the platform wallet (`balance`,
`totalEarned`), credit the organizer wallet (`pendingBalance`,
`totalEarned`), bump the event statistics, and create the ticket — all in
one atomic write set.  The two wallet writes are merges applied in source
order, each computed from the wallet snapshots read at the start of the
transaction; `ev` is the event document read *before* the transaction, as
in the source. -/
def chargeTxn (db : DB) (d : ChargeData) (md : Meta) (eid : String)
    (ev : EventDoc) : DB :=
  let fee := platformFee d.amount
  let net := organizerAmount d.amount
  let paid := paidAmount d.amount
  let org := ev.ownerId
  let pw := db.wallets ("platform")
  let owSnap := db.wallets org
  let wallets1 : String → Wallet := fun i =>
    if i = "platform" then
      { pw with balance := pw.balance + fee, totalEarned := pw.totalEarned + fee }
    else db.wallets i
  let wallets2 : String → Wallet := fun i =>
    if i = org then
      { wallets1 org with
          pendingBalance := owSnap.pendingBalance + net,
          totalEarned := owSnap.totalEarned + net }
    else wallets1 i
  let ev' : EventDoc :=
    { ev with
        ticketSold := ev.ticketSold + md.ticketNumber,
        grossRevenue := ev.grossRevenue + paid,
        organizerRevenue := ev.organizerRevenue + net,
        platformRevenue := ev.platformRevenue + fee }
  { db with
      wallets := wallets2,
      events := fun i => if i = eid then some ev' else db.events i,
      tickets := db.tickets ++ [chargeTicket db d md eid ev],
      nextTicketId := db.nextTicketId + 1 }

/-- Post-commit `ticketRef.update({ qr })` (`server.js:363-372`): attach the
generated QR payload to the ticket created by the transaction. -/
def attachQr (db : DB) (tid : ℕ) (qrImage : String) : DB :=
  { db with
      tickets := db.tickets.map fun t =>
        if t.id = tid then { t with qr := some qrImage } else t }

/-- The `ticket_sale` audit-ledger document (`server.js:377-387`). -/
def saleEntryOf (d : ChargeData) (eid : String) (ev : EventDoc) : LedgerEntry :=
  LedgerEntry.ticketSale d.reference eid ev.name ev.ownerId
    (paidAmount d.amount) (platformFee d.amount) (organizerAmount d.amount)

/-- Recognizer for a `ticket_sale` ledger entry with a given reference
(the shape the idempotence property counts). -/
def isTicketSaleFor (ref : String) : LedgerEntry → Bool
  | LedgerEntry.ticketSale r _ _ _ _ _ _ => r == ref
  | _ => false

/-- Post-commit append of the `ticket_sale` ledger entry
(`db.collection("wallet_transactions").add`, `server.js:377-387`). -/
def appendSale (db : DB) (d : ChargeData) (eid : String) (ev : EventDoc) : DB :=
  { db with ledger := db.ledger ++ [saleEntryOf d eid ev] }

/-- The state after a fully successful `charge.success` delivery: committed
transaction, then QR attachment, then ledger append.  (The confirmation
email is fire-and-forget and touches no stored state.) -/
def chargeCommitState (db : DB) (d : ChargeData) (md : Meta) (eid : String)
    (ev : EventDoc) (qrImage : String) : DB :=
  appendSale (attachQr (chargeTxn db d md eid ev) db.nextTicketId qrImage) d eid ev

/-- The `charge.success` branch of the webhook (`server.js:255-449`),
returning the new state and the HTTP status.  Guards in source order:
missing `metadata.eventId` → 200 skip; duplicate reference among tickets →
200 skip; unknown event document → 200 skip.  `commit` models the fate of
the Firestore transaction: `true` commits and the post-commit steps run;
`false` is a transaction aborted by the store, whose exception reaches the
handler's `catch` and answers 500 (`server.js:540-543`). -/
def processChargeRun (db : DB) (d : ChargeData) (qrImage : String)
    (commit : Bool) : DB × ℕ :=
  match d.metadata with
  | none => (db, 200)
  | some md =>
    match md.eventId with
    | none => (db, 200)
    | some eid =>
      if db.tickets.any fun t => t.reference == d.reference then (db, 200)
      else
        match db.events eid with
        | none => (db, 200)
        | some ev =>
          if commit then (chargeCommitState db d md eid ev qrImage, 200)
          else (db, 500)

/-- How far the post-commit sequence of a `charge.success` delivery gets.
After `db.runTransaction` commits (`server.js:357`), the handler performs
two further, separately fallible store calls: `ticketRef.update({ qr })`
(`server.js:363-372`) and `wallet_transactions.add` (`server.js:377-387`).
Either may throw into the handler's `catch` (`server.js:540-543`), which
answers 500 and rolls nothing back. -/
inductive PostCommitFate where
  | qrUpdateFailed
  | ledgerAddFailed
  | completed
deriving DecidableEq

/-- The `charge.success` branch with the post-commit store calls modelled
as separately fallible, in source order: a committed transaction followed
by `fate` — the QR update throwing (state: transaction only), the ledger
`.add` throwing (state: transaction plus QR, no ledger entry), or
completion.  A failed post-commit call answers 500 with the transaction's
writes already durable; the provider's retry then hits the duplicate check
(`server.js:276-282`) and never appends the missed ledger entry. -/
def processChargeFallible (db : DB) (d : ChargeData) (qrImage : String)
    (commit : Bool) (fate : PostCommitFate) : DB × ℕ :=
  match d.metadata with
  | none => (db, 200)
  | some md =>
    match md.eventId with
    | none => (db, 200)
    | some eid =>
      if db.tickets.any fun t => t.reference == d.reference then (db, 200)
      else
        match db.events eid with
        | none => (db, 200)
        | some ev =>
          if commit then
            match fate with
            | PostCommitFate.qrUpdateFailed => (chargeTxn db d md eid ev, 500)
            | PostCommitFate.ledgerAddFailed =>
                (attachQr (chargeTxn db d md eid ev) db.nextTicketId qrImage, 500)
            | PostCommitFate.completed =>
                (chargeCommitState db d md eid ev qrImage, 200)
          else (db, 500)

/-- A parsed webhook payload: the handler treats `charge.success` specially
and acknowledges every other event kind with 200 and no state change. -/
inductive Payload where
  | chargeSuccess (d : ChargeData)
  | otherEvent (kind : String)
deriving DecidableEq

/-- The whole webhook endpoint (`server.js:236-544`), parameterised over the
ambient HMAC-SHA512 function and the JSON parser: compare the hex digest of
the raw body against the `x-paystack-signature` header and answer 401 on
mismatch before doing anything else; a body that fails to parse throws into
the `catch` and answers 500. -/
def paystackWebhook (hmac : String → String → String)
    (parse : String → Option Payload) (secret rawBody signature : String)
    (qrImage : String) (commit : Bool) (db : DB) : DB × ℕ :=
  if hmac secret rawBody ≠ signature then (db, 401)
  else
    match parse rawBody with
    | none => (db, 500)
    | some (Payload.chargeSuccess d) => processChargeRun db d qrImage commit
    | some (Payload.otherEvent _) => (db, 200)

/-! ## Settlement sync (`GET /api/paystack/settlements`, `server.js:551-656`) -/

/-- The duplicate-settlement query (`server.js:585-590`): a
`wallet_transactions` document with `type == "settlement"` and the given
reference. -/
def isSettlementFor (ref : String) : LedgerEntry → Bool
  | LedgerEntry.settlement _ r _ _ => r == ref
  | _ => false

/-- The committed settlement transaction (`server.js:602-636`): with
`amountToSettle = Math.min(pendingBalance, settlementAmount)`, move
`amountToSettle` from `pendingBalance` to `settledBalance` and append the
`settlement` ledger entry recording both `amount` (settled) and
`grossAmount` (the full settlement). -/
def settleCommit (db : DB) (s : Settlement) (orgId : String) : DB :=
  let settlementAmount : ℚ := (s.totalAmount : ℚ) / 100
  let w := db.wallets orgId
  let amountToSettle := min w.pendingBalance settlementAmount
  { db with
      wallets := fun i =>
        if i = orgId then
          { w with
              pendingBalance := w.pendingBalance - amountToSettle,
              settledBalance := w.settledBalance + amountToSettle }
        else db.wallets i,
      ledger := db.ledger ++
        [LedgerEntry.settlement orgId (toString s.id) amountToSettle settlementAmount] }

/-- One iteration of the settlement loop (`server.js:573-643`), returning
the new state and whether the settlement was processed (`true`) or skipped
by a `continue` (`false`).  Skips, in source order: not a confirmed bank
payout; no subaccount code; already processed (duplicate reference);
subaccount not mapped to an organizer. -/
def processOneSettlement (db : DB) (s : Settlement) : DB × Bool :=
  if s.status ≠ "success" ∨ s.paidAt = none then (db, false)
  else
    match s.subaccountCode with
    | none => (db, false)
    | some subCode =>
      if db.ledger.any (isSettlementFor (toString s.id)) then (db, false)
      else
        match db.subaccounts subCode with
        | none => (db, false)
        | some orgId => (settleCommit db s orgId, true)

/-- The settlement loop over the fetched list, counting processed items. -/
def processSettlements (db : DB) : List Settlement → DB × ℕ
  | [] => (db, 0)
  | s :: rest =>
    let r := processOneSettlement db s
    let r' := processSettlements r.1 rest
    (r'.1, r'.2 + (if r.2 then 1 else 0))

/-- The settlements endpoint: admin-only; every non-throwing run answers
200 with the processed count, skipped settlements included. -/
def settlementsEndpoint (db : DB) (isAdmin : Bool)
    (settlements : List Settlement) : DB × ℕ :=
  if ¬ isAdmin then (db, 403)
  else ((processSettlements db settlements).1, 200)

/-! ## Platform withdrawal (`POST /api/admin/withdraw`, `server.js:849-893`) -/

/-- The committed platform-withdrawal transaction (`server.js:861-885`):
debit the platform wallet and append the `platform_withdrawal` ledger
entry. -/
def withdrawCommit (db : DB) (uid : String) (amount : ℚ) : DB :=
  let pw := db.wallets ("platform")
  { db with
      wallets := fun i =>
        if i = "platform" then { pw with balance := pw.balance - amount }
        else db.wallets i,
      ledger := db.ledger ++ [LedgerEntry.platformWithdrawal amount uid] }

/-- The admin-withdrawal endpoint: 403 unless admin, 400 for a non-positive
amount, 500 when the in-transaction balance check throws (aborting the
transaction), otherwise commit and answer 200. -/
def adminWithdraw (db : DB) (uid : String) (isAdmin : Bool) (amount : ℚ) :
    DB × ℕ :=
  if ¬ isAdmin then (db, 403)
  else if amount ≤ 0 then (db, 400)
  else if (db.wallets ("platform")).balance < amount then (db, 500)
  else (withdrawCommit db uid amount, 200)

/-! ## Reachable states and the audit ledger as source of truth -/

/-- The pristine deployment state: no documents at all (all wallets read as
zero through `|| 0`). -/
def initDB : DB :=
  { wallets := fun _ => {},
    events := fun _ => none,
    subaccounts := fun _ => none,
    tickets := [],
    ledger := [],
    nextTicketId := 0 }

/-- One state transition of the system: a webhook charge delivery (with the
store free to commit or abort its transaction), one settlement-sync
iteration, an admin withdrawal, or one of the out-of-core writes that only
create an event document (frontend) or a subaccount mapping
(`/api/create-subaccount`).  Event documents carry real organizer uids,
which are never the reserved id `"platform"`. -/
inductive Step : DB → DB → Prop
  | charge {db : DB} (d : ChargeData) (qrImage : String) (commit : Bool) :
      Step db (processChargeRun db d qrImage commit).1
  | settle {db : DB} (s : Settlement) :
      Step db (processOneSettlement db s).1
  | withdraw {db : DB} (uid : String) (isAdmin : Bool) (amount : ℚ) :
      Step db (adminWithdraw db uid isAdmin amount).1
  | newEvent {db : DB} (eid : String) (ev : EventDoc)
      (h : ev.ownerId ≠ "platform") :
      Step db { db with events := fun i => if i = eid then some ev else db.events i }
  | newSubaccount {db : DB} (code orgId : String) :
      Step db { db with subaccounts := fun c => if c = code then some orgId else db.subaccounts c }

/-- States reachable from the pristine state by core operations. -/
inductive Reachable : DB → Prop
  | init : Reachable initDB
  | step {db db' : DB} : Reachable db → Step db db' → Reachable db'

/-- One state transition with the fallible post-commit charge path: like
`Step`, but a charge delivery may also commit its transaction and then
fail in the QR update or the ledger append. -/
inductive StepF : DB → DB → Prop
  | charge {db : DB} (d : ChargeData) (qrImage : String) (commit : Bool)
      (fate : PostCommitFate) :
      StepF db (processChargeFallible db d qrImage commit fate).1
  | settle {db : DB} (s : Settlement) :
      StepF db (processOneSettlement db s).1
  | withdraw {db : DB} (uid : String) (isAdmin : Bool) (amount : ℚ) :
      StepF db (adminWithdraw db uid isAdmin amount).1
  | newEvent {db : DB} (eid : String) (ev : EventDoc)
      (h : ev.ownerId ≠ "platform") :
      StepF db { db with events := fun i => if i = eid then some ev else db.events i }
  | newSubaccount {db : DB} (code orgId : String) :
      StepF db { db with subaccounts := fun c => if c = code then some orgId else db.subaccounts c }

/-- Contribution of a ledger entry to an organizer's credited net. -/
def saleNetTo (w : String) : LedgerEntry → ℚ
  | LedgerEntry.ticketSale _ _ _ org _ _ net => if org = w then net else 0
  | _ => 0

/-- Contribution of a ledger entry to the platform's fee income. -/
def feeOf : LedgerEntry → ℚ
  | LedgerEntry.ticketSale _ _ _ _ _ fee _ => fee
  | _ => 0

/-- Contribution of a ledger entry to an organizer's settled funds. -/
def settleTo (w : String) : LedgerEntry → ℚ
  | LedgerEntry.settlement org _ amt _ => if org = w then amt else 0
  | _ => 0

/-- Contribution of a ledger entry to platform withdrawals. -/
def withdrawOf : LedgerEntry → ℚ
  | LedgerEntry.platformWithdrawal amt _ => amt
  | _ => 0

/-- Sum of a per-entry contribution over the ledger. -/
def sumBy (f : LedgerEntry → ℚ) (l : List LedgerEntry) : ℚ := (l.map f).sum

/-- Every wallet balance is recomputable from the ledger alone: pending =
credited nets minus settled, settled = settled amounts, earnings and the
spendable platform balance likewise. -/
def WalletsMatchLedger (db : DB) : Prop :=
  ∀ w : String,
    (db.wallets w).pendingBalance
        = sumBy (saleNetTo w) db.ledger - sumBy (settleTo w) db.ledger
    ∧ (db.wallets w).settledBalance = sumBy (settleTo w) db.ledger
    ∧ (db.wallets w).totalEarned
        = (if w = "platform" then sumBy feeOf db.ledger
           else sumBy (saleNetTo w) db.ledger)
    ∧ (db.wallets w).balance
        = (if w = "platform" then sumBy feeOf db.ledger - sumBy withdrawOf db.ledger
           else 0)

/-- Organizer uids recorded on event documents are never `"platform"`. -/
def EventOwnersOK (db : DB) : Prop :=
  ∀ eid ev, db.events eid = some ev → ev.ownerId ≠ "platform"

/-! ## Concrete example data (used by witnesses and counterexamples) -/

/-- An event document owned by organizer `org1`. -/
def evEx : EventDoc := { ownerId := "org1", name := "Concert" }

/-- Charge metadata: event `e1`, two tickets. -/
def metaEx : Meta := { eventId := some "e1", ticketNumber := 2 }

/-- A `charge.success` payload: reference `ref1`, 500000 kobo gross. -/
def chargeEx : ChargeData :=
  { reference := "ref1", amount := 500000, customerEmail := "buyer@x.com",
    metadata := some metaEx }

/-- A store holding just the event `e1`. -/
def dbEx : DB :=
  { initDB with events := fun i => if i = "e1" then some evEx else none }

/-- A ticket for reference `ref1`, as would exist after a racing delivery. -/
def ticketDup : Ticket :=
  { id := 0, reference := "ref1", eventId := "e1", eventName := "Concert",
    ticketNumber := 1, amount := 5000, status := "success", used := false,
    email := "buyer@x.com", buyerName := "Guest" }

/-- `dbEx` in which a ticket for `ref1` already exists. -/
def dbDup : DB := { dbEx with tickets := [ticketDup], nextTicketId := 1 }

/-- A store for the settlement scenarios: organizer `org1` has 600 naira
(60000 kobo) pending, and subaccount `sub1` maps to `org1`. -/
def dbSet : DB :=
  { initDB with
      wallets := fun i => if i = "org1" then { pendingBalance := 600 } else {},
      subaccounts := fun c => if c = "sub1" then some ("org1") else none }

/-- A confirmed settlement of 100000 kobo (1000 naira) for `sub1`. -/
def sBig : Settlement :=
  { status := "success", paidAt := some 1, subaccountCode := some "sub1",
    id := 42, totalAmount := 100000 }

/-- A charge whose metadata names an event id that has no document. -/
def chargeNoEvent : ChargeData :=
  { reference := "ref9", amount := 200000, customerEmail := "buyer@x.com",
    metadata := some { eventId := some "ghost", ticketNumber := 1 } }

/-- A fixed stand-in for the ambient HMAC function. -/
def hmacEx : String → String → String := fun _ _ => "digest"

/-- A fixed stand-in for the JSON parser. -/
def parseEx : String → Option Payload :=
  fun _ => some (Payload.chargeSuccess chargeEx)

/-- A parser variant yielding the event-not-found charge. -/
def parseNoEvent : String → Option Payload :=
  fun _ => some (Payload.chargeSuccess chargeNoEvent)

/-- C1: for every non-negative integer gross amount `g` in minor units, the
platform fee in minor units is `round(g * 8 / 100)` (round half-up), and
fee plus organizer net recover `g` exactly, the net being `g` minus the fee. -/
theorem c1_revenue_split (g : ℕ) :
    platformFee g * 100 = ((round ((g : ℚ) * 8 / 100) : ℤ) : ℚ) ∧
    platformFee g * 100 + organizerAmount g * 100 = (g : ℚ) ∧
    organizerAmount g = paidAmount g - platformFee g := by
  refine ⟨?_, ?_, rfl⟩
  · unfold platformFee toFixed2 paidAmount
    rw [div_mul_cancel₀ _ (by norm_num : (100 : ℚ) ≠ 0)]
    have h : (g : ℚ) / 100 * (8 / 100) * 100 = (g : ℚ) * 8 / 100 := by ring
    rw [h]
  · unfold organizerAmount
    have h : platformFee g * 100 + (paidAmount g - platformFee g) * 100
        = paidAmount g * 100 := by ring
    rw [h]
    unfold paidAmount
    rw [div_mul_cancel₀ _ (by norm_num : (100 : ℚ) ≠ 0)]

/-! ## Helper lemmas -/

theorem sumBy_append (f : LedgerEntry → ℚ) (l : List LedgerEntry)
    (e : LedgerEntry) : sumBy f (l ++ [e]) = sumBy f l + f e := by
  simp [sumBy]

theorem mapAttach_any (l : List Ticket) (tid : ℕ) (q r : String) :
    ((l.map fun t => if t.id = tid then { t with qr := some q } else t).any
      fun t => t.reference == r) = (l.any fun t => t.reference == r) := by
  induction l with
  | nil => rfl
  | cons t ts ih =>
    simp only [List.map_cons, List.any_cons, ih]
    by_cases h : t.id = tid <;> simp [h]

theorem mapAttach_countP (l : List Ticket) (tid : ℕ) (q r : String) :
    ((l.map fun t => if t.id = tid then { t with qr := some q } else t).countP
      fun t => t.reference == r) = (l.countP fun t => t.reference == r) := by
  induction l with
  | nil => rfl
  | cons t ts ih =>
    simp only [List.map_cons, List.countP_cons, ih]
    by_cases h : t.id = tid <;> simp [h]

theorem chargeTxn_wallets_platform (db : DB) (d : ChargeData) (md : Meta)
    (eid : String) (ev : EventDoc) (h : ev.ownerId ≠ "platform") :
    (chargeTxn db d md eid ev).wallets ("platform")
      = { db.wallets ("platform") with
            balance := (db.wallets ("platform")).balance + platformFee d.amount,
            totalEarned :=
              (db.wallets ("platform")).totalEarned + platformFee d.amount } := by
  simp [chargeTxn, Ne.symm h]

theorem chargeTxn_wallets_owner (db : DB) (d : ChargeData) (md : Meta)
    (eid : String) (ev : EventDoc) (h : ev.ownerId ≠ "platform") :
    (chargeTxn db d md eid ev).wallets ev.ownerId
      = { db.wallets ev.ownerId with
            pendingBalance :=
              (db.wallets ev.ownerId).pendingBalance + organizerAmount d.amount,
            totalEarned :=
              (db.wallets ev.ownerId).totalEarned + organizerAmount d.amount } := by
  simp [chargeTxn, h]

theorem chargeTxn_wallets_other (db : DB) (d : ChargeData) (md : Meta)
    (eid : String) (ev : EventDoc) (w : String) (hw1 : w ≠ "platform")
    (hw2 : w ≠ ev.ownerId) :
    (chargeTxn db d md eid ev).wallets w = db.wallets w := by
  simp [chargeTxn, hw1, hw2]

theorem chargeTxn_tickets (db : DB) (d : ChargeData) (md : Meta)
    (eid : String) (ev : EventDoc) :
    (chargeTxn db d md eid ev).tickets
      = db.tickets ++ [chargeTicket db d md eid ev] := rfl

theorem chargeTxn_ledger (db : DB) (d : ChargeData) (md : Meta)
    (eid : String) (ev : EventDoc) :
    (chargeTxn db d md eid ev).ledger = db.ledger := rfl

theorem chargeTxn_events (db : DB) (d : ChargeData) (md : Meta)
    (eid : String) (ev : EventDoc) :
    (chargeTxn db d md eid ev).events
      = fun i => if i = eid then some
          { ev with
              ticketSold := ev.ticketSold + md.ticketNumber,
              grossRevenue := ev.grossRevenue + paidAmount d.amount,
              organizerRevenue := ev.organizerRevenue + organizerAmount d.amount,
              platformRevenue := ev.platformRevenue + platformFee d.amount }
        else db.events i := rfl

theorem processChargeRun_cases (db : DB) (d : ChargeData) (qrImage : String)
    (commit : Bool) :
    (processChargeRun db d qrImage commit).1 = db
    ∨ ∃ md eid ev, d.metadata = some md ∧ md.eventId = some eid
        ∧ (db.tickets.any fun t => t.reference == d.reference) = false
        ∧ db.events eid = some ev ∧ commit = true
        ∧ (processChargeRun db d qrImage commit).1
            = chargeCommitState db d md eid ev qrImage := by
  rcases hm : d.metadata with _ | md
  · exact Or.inl (by simp [processChargeRun, hm])
  · rcases he : md.eventId with _ | eid
    · exact Or.inl (by simp [processChargeRun, hm, he])
    · cases hdup : (db.tickets.any fun t => t.reference == d.reference) with
      | true => exact Or.inl (by simp [processChargeRun, hm, he, hdup])
      | false =>
        rcases hev : db.events eid with _ | ev
        · exact Or.inl (by simp [processChargeRun, hm, he, hdup, hev])
        · cases commit with
          | false => exact Or.inl (by simp [processChargeRun, hm, he, hdup, hev])
          | true =>
            exact Or.inr ⟨md, eid, ev, rfl, he, rfl, hev, rfl,
              by simp [processChargeRun, hm, he, hdup, hev]⟩

theorem processChargeRun_commit (db : DB) (d : ChargeData) (md : Meta)
    (eid : String) (ev : EventDoc) (qrImage : String)
    (hm : d.metadata = some md) (he : md.eventId = some eid)
    (hdup : (db.tickets.any fun t => t.reference == d.reference) = false)
    (hev : db.events eid = some ev) :
    processChargeRun db d qrImage true
      = (chargeCommitState db d md eid ev qrImage, 200) := by
  simp [processChargeRun, hm, he, hdup, hev]

theorem processChargeRun_dup (db : DB) (d : ChargeData) (md : Meta)
    (eid : String) (qrImage : String) (commit : Bool)
    (hm : d.metadata = some md) (he : md.eventId = some eid)
    (hdup : (db.tickets.any fun t => t.reference == d.reference) = true) :
    processChargeRun db d qrImage commit = (db, 200) := by
  simp [processChargeRun, hm, he, hdup]

theorem processChargeFallible_completed (db : DB) (d : ChargeData)
    (qrImage : String) (commit : Bool) :
    processChargeFallible db d qrImage commit PostCommitFate.completed
      = processChargeRun db d qrImage commit := by
  rcases hm : d.metadata with _ | md
  · simp [processChargeFallible, processChargeRun, hm]
  · rcases he : md.eventId with _ | eid
    · simp [processChargeFallible, processChargeRun, hm, he]
    · cases hdup : (db.tickets.any fun t => t.reference == d.reference) with
      | true => simp [processChargeFallible, processChargeRun, hm, he, hdup]
      | false =>
        rcases hev : db.events eid with _ | ev
        · simp [processChargeFallible, processChargeRun, hm, he, hdup, hev]
        · cases commit with
          | false => simp [processChargeFallible, processChargeRun, hm, he, hdup, hev]
          | true => simp [processChargeFallible, processChargeRun, hm, he, hdup, hev]

theorem processChargeFallible_ledgerAddFailed (db : DB) (d : ChargeData)
    (md : Meta) (eid : String) (ev : EventDoc) (qrImage : String)
    (hm : d.metadata = some md) (he : md.eventId = some eid)
    (hdup : (db.tickets.any fun t => t.reference == d.reference) = false)
    (hev : db.events eid = some ev) :
    processChargeFallible db d qrImage true PostCommitFate.ledgerAddFailed
      = (attachQr (chargeTxn db d md eid ev) db.nextTicketId qrImage, 500) := by
  simp [processChargeFallible, hm, he, hdup, hev]

theorem processChargeFallible_cases (db : DB) (d : ChargeData)
    (qrImage : String) (commit : Bool) (fate : PostCommitFate) :
    (processChargeFallible db d qrImage commit fate).1 = db
    ∨ ∃ md eid ev, d.metadata = some md ∧ md.eventId = some eid
        ∧ (db.tickets.any fun t => t.reference == d.reference) = false
        ∧ db.events eid = some ev ∧ commit = true
        ∧ ((processChargeFallible db d qrImage commit fate).1
              = chargeTxn db d md eid ev
           ∨ (processChargeFallible db d qrImage commit fate).1
              = attachQr (chargeTxn db d md eid ev) db.nextTicketId qrImage
           ∨ (processChargeFallible db d qrImage commit fate).1
              = chargeCommitState db d md eid ev qrImage) := by
  rcases hm : d.metadata with _ | md
  · exact Or.inl (by simp [processChargeFallible, hm])
  · rcases he : md.eventId with _ | eid
    · exact Or.inl (by simp [processChargeFallible, hm, he])
    · cases hdup : (db.tickets.any fun t => t.reference == d.reference) with
      | true => exact Or.inl (by simp [processChargeFallible, hm, he, hdup])
      | false =>
        rcases hev : db.events eid with _ | ev
        · exact Or.inl (by simp [processChargeFallible, hm, he, hdup, hev])
        · cases commit with
          | false => exact Or.inl (by simp [processChargeFallible, hm, he, hdup, hev])
          | true =>
            cases fate with
            | qrUpdateFailed =>
              exact Or.inr ⟨md, eid, ev, rfl, he, rfl, hev, rfl,
                Or.inl (by simp [processChargeFallible, hm, he, hdup, hev])⟩
            | ledgerAddFailed =>
              exact Or.inr ⟨md, eid, ev, rfl, he, rfl, hev, rfl,
                Or.inr (Or.inl (by simp [processChargeFallible, hm, he, hdup, hev]))⟩
            | completed =>
              exact Or.inr ⟨md, eid, ev, rfl, he, rfl, hev, rfl,
                Or.inr (Or.inr (by simp [processChargeFallible, hm, he, hdup, hev]))⟩

theorem attachQr_wallets (db : DB) (tid : ℕ) (q : String) :
    (attachQr db tid q).wallets = db.wallets := rfl

theorem attachQr_events (db : DB) (tid : ℕ) (q : String) :
    (attachQr db tid q).events = db.events := rfl

theorem attachQr_ledger (db : DB) (tid : ℕ) (q : String) :
    (attachQr db tid q).ledger = db.ledger := rfl

theorem appendSale_wallets (db : DB) (d : ChargeData) (eid : String)
    (ev : EventDoc) : (appendSale db d eid ev).wallets = db.wallets := rfl

theorem appendSale_events (db : DB) (d : ChargeData) (eid : String)
    (ev : EventDoc) : (appendSale db d eid ev).events = db.events := rfl

theorem appendSale_tickets (db : DB) (d : ChargeData) (eid : String)
    (ev : EventDoc) : (appendSale db d eid ev).tickets = db.tickets := rfl

theorem appendSale_ledger (db : DB) (d : ChargeData) (eid : String)
    (ev : EventDoc) :
    (appendSale db d eid ev).ledger = db.ledger ++ [saleEntryOf d eid ev] := rfl

theorem chargeCommitState_wallets (db : DB) (d : ChargeData) (md : Meta)
    (eid : String) (ev : EventDoc) (q : String) :
    (chargeCommitState db d md eid ev q).wallets
      = (chargeTxn db d md eid ev).wallets := rfl

theorem chargeCommitState_events (db : DB) (d : ChargeData) (md : Meta)
    (eid : String) (ev : EventDoc) (q : String) :
    (chargeCommitState db d md eid ev q).events
      = (chargeTxn db d md eid ev).events := rfl

theorem chargeCommitState_ledger (db : DB) (d : ChargeData) (md : Meta)
    (eid : String) (ev : EventDoc) (q : String) :
    (chargeCommitState db d md eid ev q).ledger
      = db.ledger ++ [saleEntryOf d eid ev] := rfl

theorem chargeCommitState_tickets (db : DB) (d : ChargeData) (md : Meta)
    (eid : String) (ev : EventDoc) (q : String) :
    (chargeCommitState db d md eid ev q).tickets
      = (db.tickets ++ [chargeTicket db d md eid ev]).map fun t =>
          if t.id = db.nextTicketId then { t with qr := some q } else t := rfl

theorem settleCommit_wallets_org (db : DB) (s : Settlement) (orgId : String) :
    (settleCommit db s orgId).wallets orgId
      = { db.wallets orgId with
            pendingBalance := (db.wallets orgId).pendingBalance
              - min ((db.wallets orgId).pendingBalance) ((s.totalAmount : ℚ) / 100),
            settledBalance := (db.wallets orgId).settledBalance
              + min ((db.wallets orgId).pendingBalance) ((s.totalAmount : ℚ) / 100) } := by
  simp [settleCommit]

theorem settleCommit_wallets_other (db : DB) (s : Settlement) (orgId : String)
    (w : String) (hw : w ≠ orgId) :
    (settleCommit db s orgId).wallets w = db.wallets w := by
  simp [settleCommit, hw]

theorem settleCommit_ledger (db : DB) (s : Settlement) (orgId : String) :
    (settleCommit db s orgId).ledger
      = db.ledger ++ [LedgerEntry.settlement orgId (toString s.id)
          (min ((db.wallets orgId).pendingBalance) ((s.totalAmount : ℚ) / 100))
          ((s.totalAmount : ℚ) / 100)] := rfl

theorem settleCommit_events (db : DB) (s : Settlement) (orgId : String) :
    (settleCommit db s orgId).events = db.events := rfl

theorem settleCommit_tickets (db : DB) (s : Settlement) (orgId : String) :
    (settleCommit db s orgId).tickets = db.tickets := rfl

theorem processOneSettlement_commit (db : DB) (s : Settlement)
    (subCode orgId : String)
    (hst : s.status = "success") (hp : s.paidAt ≠ none)
    (hsub : s.subaccountCode = some subCode)
    (hnew : (db.ledger.any (isSettlementFor (toString s.id))) = false)
    (hmap : db.subaccounts subCode = some orgId) :
    processOneSettlement db s = (settleCommit db s orgId, true) := by
  simp [processOneSettlement, hst, hp, hsub, hnew, hmap]

theorem processOneSettlement_cases (db : DB) (s : Settlement) :
    (processOneSettlement db s).1 = db
    ∨ ∃ subCode orgId, s.subaccountCode = some subCode
        ∧ db.subaccounts subCode = some orgId
        ∧ processOneSettlement db s = (settleCommit db s orgId, true) := by
  by_cases hguard : s.status ≠ "success" ∨ s.paidAt = none
  · exact Or.inl (by simp [processOneSettlement, hguard])
  · rcases hsub : s.subaccountCode with _ | subCode
    · exact Or.inl (by simp [processOneSettlement, hguard, hsub])
    · cases hnew : db.ledger.any (isSettlementFor (toString s.id)) with
      | true => exact Or.inl (by simp [processOneSettlement, hguard, hsub, hnew])
      | false =>
        rcases hmap : db.subaccounts subCode with _ | orgId
        · exact Or.inl (by simp [processOneSettlement, hguard, hsub, hnew, hmap])
        · refine Or.inr ⟨subCode, orgId, rfl, hmap, ?_⟩
          simp [processOneSettlement, hguard, hsub, hnew, hmap]

theorem withdrawCommit_wallets_platform (db : DB) (uid : String) (amount : ℚ) :
    (withdrawCommit db uid amount).wallets ("platform")
      = { db.wallets ("platform") with
            balance := (db.wallets ("platform")).balance - amount } := by
  simp [withdrawCommit]

theorem withdrawCommit_wallets_other (db : DB) (uid : String) (amount : ℚ)
    (w : String) (hw : w ≠ "platform") :
    (withdrawCommit db uid amount).wallets w = db.wallets w := by
  simp [withdrawCommit, hw]

theorem withdrawCommit_ledger (db : DB) (uid : String) (amount : ℚ) :
    (withdrawCommit db uid amount).ledger
      = db.ledger ++ [LedgerEntry.platformWithdrawal amount uid] := rfl

theorem adminWithdraw_cases (db : DB) (uid : String) (isAdmin : Bool)
    (amount : ℚ) :
    (adminWithdraw db uid isAdmin amount).1 = db
    ∨ adminWithdraw db uid isAdmin amount = (withdrawCommit db uid amount, 200) := by
  cases isAdmin with
  | false => exact Or.inl (by simp [adminWithdraw])
  | true =>
    by_cases hle : amount ≤ 0
    · exact Or.inl (by simp [adminWithdraw, hle])
    · by_cases hlt : (db.wallets ("platform")).balance < amount
      · exact Or.inl (by simp [adminWithdraw, hle, hlt])
      · exact Or.inr (by simp [adminWithdraw, hle, hlt])

theorem saleNetTo_sale (w r ei en org : String) (g f n : ℚ) :
    saleNetTo w (LedgerEntry.ticketSale r ei en org g f n)
      = if org = w then n else 0 := rfl

theorem saleNetTo_settlement (w org r : String) (a g : ℚ) :
    saleNetTo w (LedgerEntry.settlement org r a g) = 0 := rfl

theorem saleNetTo_withdrawal (w : String) (a : ℚ) (uid : String) :
    saleNetTo w (LedgerEntry.platformWithdrawal a uid) = 0 := rfl

theorem feeOf_sale (r ei en org : String) (g f n : ℚ) :
    feeOf (LedgerEntry.ticketSale r ei en org g f n) = f := rfl

theorem feeOf_settlement (org r : String) (a g : ℚ) :
    feeOf (LedgerEntry.settlement org r a g) = 0 := rfl

theorem feeOf_withdrawal (a : ℚ) (uid : String) :
    feeOf (LedgerEntry.platformWithdrawal a uid) = 0 := rfl

theorem settleTo_sale (w r ei en org : String) (g f n : ℚ) :
    settleTo w (LedgerEntry.ticketSale r ei en org g f n) = 0 := rfl

theorem settleTo_settlement (w org r : String) (a g : ℚ) :
    settleTo w (LedgerEntry.settlement org r a g)
      = if org = w then a else 0 := rfl

theorem settleTo_withdrawal (w : String) (a : ℚ) (uid : String) :
    settleTo w (LedgerEntry.platformWithdrawal a uid) = 0 := rfl

theorem withdrawOf_sale (r ei en org : String) (g f n : ℚ) :
    withdrawOf (LedgerEntry.ticketSale r ei en org g f n) = 0 := rfl

theorem withdrawOf_settlement (org r : String) (a g : ℚ) :
    withdrawOf (LedgerEntry.settlement org r a g) = 0 := rfl

theorem withdrawOf_withdrawal (a : ℚ) (uid : String) :
    withdrawOf (LedgerEntry.platformWithdrawal a uid) = a := rfl

theorem init_inv : EventOwnersOK initDB ∧ WalletsMatchLedger initDB := by
  constructor
  · intro i e hi
    simp [initDB] at hi
  · intro w
    refine ⟨?_, ?_, ?_, ?_⟩ <;> simp [initDB, sumBy]

theorem inv_charge (db : DB) (d : ChargeData) (md : Meta) (eid : String)
    (ev : EventDoc) (q : String) (hev : db.events eid = some ev)
    (hE : EventOwnersOK db) (hW : WalletsMatchLedger db) :
    WalletsMatchLedger (chargeCommitState db d md eid ev q) := by
  have horg : ev.ownerId ≠ "platform" := hE eid ev hev
  intro w
  obtain ⟨h1, h2, h3, h4⟩ := hW w
  rw [WalletsMatchLedger] at *
  have hwal := chargeCommitState_wallets db d md eid ev q
  have hled := chargeCommitState_ledger db d md eid ev q
  by_cases hwp : w = "platform"
  · subst hwp
    rw [hwal, hled, chargeTxn_wallets_platform db d md eid ev horg]
    refine ⟨?_, ?_, ?_, ?_⟩
    · simp [sumBy_append, saleEntryOf, saleNetTo_sale, settleTo_sale, horg, h1]
    · simp [sumBy_append, saleEntryOf, settleTo_sale, h2]
    · simp [sumBy_append, saleEntryOf, feeOf_sale]
      simp at h3
      rw [h3]
    · simp [sumBy_append, saleEntryOf, feeOf_sale, withdrawOf_sale]
      simp at h4
      rw [h4]
      ring
  · by_cases hwo : w = ev.ownerId
    · subst hwo
      rw [hwal, hled, chargeTxn_wallets_owner db d md eid ev horg]
      refine ⟨?_, ?_, ?_, ?_⟩
      · simp only [sumBy_append, saleEntryOf, saleNetTo_sale, settleTo_sale,
          if_pos rfl, add_zero]
        simp
        rw [h1]
        ring
      · simp [sumBy_append, saleEntryOf, settleTo_sale, h2]
      · simp only [sumBy_append, saleEntryOf, saleNetTo_sale, feeOf_sale,
          if_pos rfl]
        rw [if_neg hwp] at h3 ⊢
        simp [h3]
      · rw [if_neg hwp] at h4 ⊢
        simp [h4]
    · have hwo' : ev.ownerId ≠ w := Ne.symm hwo
      rw [hwal, hled, chargeTxn_wallets_other db d md eid ev w hwp hwo]
      refine ⟨?_, ?_, ?_, ?_⟩
      · simp [sumBy_append, saleEntryOf, saleNetTo_sale, settleTo_sale, hwo', h1]
      · simp [sumBy_append, saleEntryOf, settleTo_sale, h2]
      · rw [if_neg hwp] at h3 ⊢
        simp [sumBy_append, saleEntryOf, saleNetTo_sale, hwo', h3]
      · rw [if_neg hwp] at h4 ⊢
        exact h4

theorem inv_settle (db : DB) (s : Settlement) (orgId : String)
    (hW : WalletsMatchLedger db) :
    WalletsMatchLedger (settleCommit db s orgId) := by
  intro w
  obtain ⟨h1, h2, h3, h4⟩ := hW w
  have hled := settleCommit_ledger db s orgId
  by_cases hwo : w = orgId
  · subst hwo
    rw [hled, settleCommit_wallets_org db s w]
    refine ⟨?_, ?_, ?_, ?_⟩
    · simp only [sumBy_append, saleNetTo_settlement, settleTo_settlement,
        if_pos rfl, add_zero]
      simp
      rw [h1]
      ring
    · simp only [sumBy_append, settleTo_settlement, if_pos rfl]
      simp [h2]
    · simp only [sumBy_append, saleNetTo_settlement, feeOf_settlement, add_zero]
      simpa using h3
    · simp only [sumBy_append, feeOf_settlement, withdrawOf_settlement, add_zero]
      simpa using h4
  · have hwo' : orgId ≠ w := Ne.symm hwo
    rw [hled, settleCommit_wallets_other db s orgId w hwo]
    refine ⟨?_, ?_, ?_, ?_⟩
    · simp [sumBy_append, saleNetTo_settlement, settleTo_settlement, hwo', h1]
    · simp [sumBy_append, settleTo_settlement, hwo', h2]
    · simp only [sumBy_append, saleNetTo_settlement, feeOf_settlement, add_zero]
      simpa using h3
    · simp only [sumBy_append, feeOf_settlement, withdrawOf_settlement, add_zero]
      simpa using h4

theorem inv_withdraw (db : DB) (uid : String) (amount : ℚ)
    (hW : WalletsMatchLedger db) :
    WalletsMatchLedger (withdrawCommit db uid amount) := by
  intro w
  obtain ⟨h1, h2, h3, h4⟩ := hW w
  have hled := withdrawCommit_ledger db uid amount
  by_cases hwp : w = "platform"
  · subst hwp
    rw [hled, withdrawCommit_wallets_platform db uid amount]
    refine ⟨?_, ?_, ?_, ?_⟩
    · simp [sumBy_append, saleNetTo_withdrawal, settleTo_withdrawal, h1]
    · simp [sumBy_append, settleTo_withdrawal, h2]
    · simp only [sumBy_append, feeOf_withdrawal, saleNetTo_withdrawal, add_zero]
      simpa using h3
    · rw [if_pos rfl] at h4
      simp only [sumBy_append, feeOf_withdrawal, withdrawOf_withdrawal,
        if_pos rfl, add_zero]
      simp
      rw [h4]
      ring
  · rw [hled, withdrawCommit_wallets_other db uid amount w hwp]
    refine ⟨?_, ?_, ?_, ?_⟩
    · simp [sumBy_append, saleNetTo_withdrawal, settleTo_withdrawal, h1]
    · simp [sumBy_append, settleTo_withdrawal, h2]
    · rw [if_neg hwp] at h3 ⊢
      simp [sumBy_append, saleNetTo_withdrawal, h3]
    · rw [if_neg hwp] at h4 ⊢
      exact h4

theorem ownersOK_charge (db : DB) (d : ChargeData) (md : Meta) (eid : String)
    (ev : EventDoc) (q : String) (hev : db.events eid = some ev)
    (hE : EventOwnersOK db) :
    EventOwnersOK (chargeCommitState db d md eid ev q) := by
  intro i e hi
  rw [chargeCommitState_events, chargeTxn_events] at hi
  beta_reduce at hi
  by_cases h : i = eid
  · subst h
    rw [if_pos rfl] at hi
    have he : e = { ev with
        ticketSold := ev.ticketSold + md.ticketNumber,
        grossRevenue := ev.grossRevenue + paidAmount d.amount,
        organizerRevenue := ev.organizerRevenue + organizerAmount d.amount,
        platformRevenue := ev.platformRevenue + platformFee d.amount } :=
      (Option.some.injEq _ _ ▸ hi).symm
    rw [he]
    exact hE i ev hev
  · rw [if_neg h] at hi
    exact hE i e hi

theorem step_inv {db db' : DB}
    (h : EventOwnersOK db ∧ WalletsMatchLedger db) (st : Step db db') :
    EventOwnersOK db' ∧ WalletsMatchLedger db' := by
  obtain ⟨hE, hW⟩ := h
  cases st with
  | charge d q c =>
    rcases processChargeRun_cases db d q c with hc | ⟨md, eid, ev, hm, he, hdup, hev, hcomm, hc⟩
    · rw [hc]; exact ⟨hE, hW⟩
    · rw [hc]
      exact ⟨ownersOK_charge db d md eid ev q hev hE,
        inv_charge db d md eid ev q hev hE hW⟩
  | settle s =>
    rcases processOneSettlement_cases db s with hc | ⟨sc, org, hsub, hmap, hc⟩
    · rw [hc]; exact ⟨hE, hW⟩
    · have hc1 : (processOneSettlement db s).1 = settleCommit db s org := by
        rw [hc]
      rw [hc1]
      refine ⟨?_, inv_settle db s org hW⟩
      intro i e hi
      rw [settleCommit_events] at hi
      exact hE i e hi
  | withdraw uid adm amt =>
    rcases adminWithdraw_cases db uid adm amt with hc | hc
    · rw [hc]; exact ⟨hE, hW⟩
    · have hc1 : (adminWithdraw db uid adm amt).1 = withdrawCommit db uid amt := by
        rw [hc]
      rw [hc1]
      refine ⟨?_, inv_withdraw db uid amt hW⟩
      intro i e hi
      exact hE i e hi
  | newEvent eid ev hne =>
    constructor
    · intro i e hi
      simp only at hi
      by_cases h : i = eid
      · subst h
        rw [if_pos rfl] at hi
        have he : e = ev := (Option.some.injEq _ _ ▸ hi).symm
        rw [he]
        exact hne
      · rw [if_neg h] at hi
        exact hE i e hi
    · intro w
      exact hW w
  | newSubaccount code orgId =>
    exact ⟨fun i e hi => hE i e hi, fun w => hW w⟩

theorem reachable_inv (db : DB) (h : Reachable db) :
    EventOwnersOK db ∧ WalletsMatchLedger db := by
  induction h with
  | init => exact init_inv
  | step hr st ih => exact step_inv ih st

/-! ## Claims -/

/-- C2: a verified, non-duplicate `charge_succeeded` event commits, in one
transaction, `+fee` to the platform wallet's `balance` and `totalEarned`,
`+net` to the organizer wallet's `pendingBalance` and `totalEarned`, the
event statistics deltas, and exactly one new Ticket with status
`"success"`, `used = false`, that reference, and no QR payload; the full
handler answers 200 and its final wallets are the transaction's wallets.
In particular gross 500000 at fee percent 8 gives fee 40000 and net 460000
minor units. -/
theorem c2_charge_effects (db : DB) (d : ChargeData) (md : Meta)
    (eid : String) (ev : EventDoc) (qrImage : String)
    (hm : d.metadata = some md) (he : md.eventId = some eid)
    (hdup : (db.tickets.any fun t => t.reference == d.reference) = false)
    (hev : db.events eid = some ev) (hOwn : ev.ownerId ≠ "platform") :
    ((chargeTxn db d md eid ev).wallets ("platform")).balance
        = (db.wallets ("platform")).balance + platformFee d.amount
    ∧ ((chargeTxn db d md eid ev).wallets ("platform")).totalEarned
        = (db.wallets ("platform")).totalEarned + platformFee d.amount
    ∧ ((chargeTxn db d md eid ev).wallets ev.ownerId).pendingBalance
        = (db.wallets ev.ownerId).pendingBalance + organizerAmount d.amount
    ∧ ((chargeTxn db d md eid ev).wallets ev.ownerId).totalEarned
        = (db.wallets ev.ownerId).totalEarned + organizerAmount d.amount
    ∧ (chargeTxn db d md eid ev).events eid = some
        { ev with
            ticketSold := ev.ticketSold + md.ticketNumber,
            grossRevenue := ev.grossRevenue + paidAmount d.amount,
            organizerRevenue := ev.organizerRevenue + organizerAmount d.amount,
            platformRevenue := ev.platformRevenue + platformFee d.amount }
    ∧ (∃ t : Ticket, (chargeTxn db d md eid ev).tickets = db.tickets ++ [t]
        ∧ t.reference = d.reference ∧ t.status = "success" ∧ t.used = false
        ∧ t.qr = none)
    ∧ ((chargeTxn db d md eid ev).tickets.countP
        fun t => t.reference == d.reference) = 1
    ∧ (processChargeRun db d qrImage true).2 = 200
    ∧ (processChargeRun db d qrImage true).1.wallets
        = (chargeTxn db d md eid ev).wallets
    ∧ platformFee 500000 * 100 = 40000
    ∧ organizerAmount 500000 * 100 = 460000 := by
  have hrun := processChargeRun_commit db d md eid ev qrImage hm he hdup hev
  refine ⟨?_, ?_, ?_, ?_, ?_, ?_, ?_, ?_, ?_, ?_, ?_⟩
  · rw [chargeTxn_wallets_platform db d md eid ev hOwn]
  · rw [chargeTxn_wallets_platform db d md eid ev hOwn]
  · rw [chargeTxn_wallets_owner db d md eid ev hOwn]
  · rw [chargeTxn_wallets_owner db d md eid ev hOwn]
  · rw [chargeTxn_events]
    beta_reduce
    rw [if_pos rfl]
  · exact ⟨chargeTicket db d md eid ev, chargeTxn_tickets db d md eid ev,
      rfl, rfl, rfl, rfl⟩
  · rw [chargeTxn_tickets]
    rw [List.countP_append]
    have hz : (db.tickets.countP fun t => t.reference == d.reference) = 0 :=
      List.countP_eq_zero.mpr (by
        intro a ha
        have := List.any_eq_false.mp hdup a ha
        simpa using this)
    simp [hz, chargeTicket]
  · rw [hrun]
  · rw [hrun]
    exact chargeCommitState_wallets db d md eid ev qrImage
  · norm_num [platformFee, toFixed2, paidAmount, round_eq]
  · norm_num [organizerAmount, platformFee, toFixed2, paidAmount, round_eq]

/-- C2 witness: concrete instantiation — event `e1` owned by `org1`, gross
500000 kobo: the platform balance gains the fee, the organizer pending
balance gains the net. -/
theorem c2_witness :
    chargeEx.metadata = some metaEx
    ∧ ((chargeTxn dbEx chargeEx metaEx "e1" evEx).wallets ("platform")).balance
        = (dbEx.wallets ("platform")).balance + platformFee chargeEx.amount
    ∧ ((chargeTxn dbEx chargeEx metaEx "e1" evEx).wallets evEx.ownerId).pendingBalance
        = (dbEx.wallets evEx.ownerId).pendingBalance + organizerAmount chargeEx.amount := by
  have h := c2_charge_effects dbEx chargeEx metaEx "e1" evEx "QR"
    rfl rfl (by decide) (by decide) (by decide)
  exact ⟨rfl, h.1, h.2.2.1⟩

/-- C3: delivering the same `charge.success` payload twice leaves exactly
one Ticket and exactly one `ticket_sale` WalletTransaction for the
reference; the second delivery returns the state unchanged with a 200
acknowledgment (whatever the store would have done with its transaction,
which is never reached). -/
theorem c3_idempotent (db : DB) (d : ChargeData) (md : Meta) (eid : String)
    (ev : EventDoc) (qr1 qr2 : String) (commit2 : Bool)
    (hm : d.metadata = some md) (he : md.eventId = some eid)
    (hdup : (db.tickets.any fun t => t.reference == d.reference) = false)
    (hev : db.events eid = some ev)
    (hled : (db.ledger.countP (isTicketSaleFor d.reference)) = 0) :
    processChargeRun ((processChargeRun db d qr1 true).1) d qr2 commit2
      = ((processChargeRun db d qr1 true).1, 200)
    ∧ ((processChargeRun db d qr1 true).1.tickets.countP
        fun t => t.reference == d.reference) = 1
    ∧ ((processChargeRun db d qr1 true).1.ledger.countP
        (isTicketSaleFor d.reference)) = 1 := by
  have hrun := processChargeRun_commit db d md eid ev qr1 hm he hdup hev
  have hz : (db.tickets.countP fun t => t.reference == d.reference) = 0 :=
    List.countP_eq_zero.mpr (by
      intro a ha
      have := List.any_eq_false.mp hdup a ha
      simpa using this)
  refine ⟨?_, ?_, ?_⟩
  · rw [hrun]
    have hdup2 : ((chargeCommitState db d md eid ev qr1).tickets.any
        fun t => t.reference == d.reference) = true := by
      rw [chargeCommitState_tickets, mapAttach_any, List.any_append]
      simp [chargeTicket]
    exact processChargeRun_dup (chargeCommitState db d md eid ev qr1) d md eid
      qr2 commit2 hm he hdup2
  · rw [hrun]
    rw [chargeCommitState_tickets, mapAttach_countP, List.countP_append]
    simp [hz, chargeTicket]
  · rw [hrun]
    rw [chargeCommitState_ledger, List.countP_append]
    simp [hled, isTicketSaleFor, saleEntryOf]

/-- C3 witness: concrete double delivery of `chargeEx` against `dbEx`. -/
theorem c3_witness :
    processChargeRun ((processChargeRun dbEx chargeEx "q1" true).1) chargeEx
        "q2" false = ((processChargeRun dbEx chargeEx "q1" true).1, 200)
    ∧ ((processChargeRun dbEx chargeEx "q1" true).1.tickets.countP
        fun t => t.reference == chargeEx.reference) = 1
    ∧ ((processChargeRun dbEx chargeEx "q1" true).1.ledger.countP
        (isTicketSaleFor chargeEx.reference)) = 1 := by
  have h := c3_idempotent dbEx chargeEx metaEx "e1" evEx "q1" "q2" false
    rfl rfl (by decide) (by decide) (by decide)
  exact h

/-- C4: when the store aborts the charge transaction (`commit = false`),
the handler leaves every collection — wallets, events, tickets, audit
ledger — exactly as it was; nothing before the transaction writes, so no
reader can observe a partial application of the four updates. -/
theorem c4_abort_all_or_nothing (db : DB) (d : ChargeData) (qrImage : String) :
    (processChargeRun db d qrImage false).1 = db
    ∧ (processChargeRun db d qrImage false).1.wallets = db.wallets
    ∧ (processChargeRun db d qrImage false).1.events = db.events
    ∧ (processChargeRun db d qrImage false).1.tickets = db.tickets
    ∧ (processChargeRun db d qrImage false).1.ledger = db.ledger := by
  have h : (processChargeRun db d qrImage false).1 = db := by
    rcases processChargeRun_cases db d qrImage false with
      hc | ⟨_, _, _, _, _, _, _, hcomm, _⟩
    · exact hc
    · exact absurd hcomm (by decide)
  exact ⟨h, by rw [h], by rw [h], by rw [h], by rw [h]⟩

/-- C5 counterexample: the atomic write step applied to a state that
already holds a Ticket with the same reference *does* create a second
Ticket — the transaction body re-checks nothing and writes to a fresh
auto-id document, so the claimed in-transaction uniqueness backstop does
not exist in the code. -/
theorem c5_counterexample :
    ¬ (((chargeTxn dbDup chargeEx metaEx "e1" evEx).tickets.countP
        fun t => t.reference == ("ref1")) ≤ 1) := by decide

/-- C5 amended: uniqueness per reference holds only through the
pre-transaction duplicate check, i.e. for serialized deliveries: one whole
handler run never raises the per-reference ticket count above
`max 1 (previous count)`; the transaction itself has no uniqueness
backstop (see the counterexample). -/
theorem c5_serialized_uniqueness (db : DB) (d : ChargeData) (qrImage : String)
    (commit : Bool) (r : String) :
    ((processChargeRun db d qrImage commit).1.tickets.countP
        fun t => t.reference == r)
      ≤ max 1 (db.tickets.countP fun t => t.reference == r) := by
  rcases processChargeRun_cases db d qrImage commit with
    hc | ⟨md, eid, ev, hm, he, hdup, hev, hcomm, hc⟩
  · rw [hc]
    exact le_max_right 1 _
  · rw [hc, chargeCommitState_tickets, mapAttach_countP, List.countP_append]
    have hz : (db.tickets.countP fun t => t.reference == d.reference) = 0 :=
      List.countP_eq_zero.mpr (by
        intro a ha
        have := List.any_eq_false.mp hdup a ha
        simpa using this)
    by_cases hr : d.reference = r
    · subst hr
      rw [hz]
      simp [chargeTicket]
    · have h0 : (List.countP (fun t => t.reference == r)
          [chargeTicket db d md eid ev]) = 0 := by
        simp [chargeTicket, hr]
      rw [h0, add_zero]
      exact le_max_right 1 _

/-- C6 counterexample: a settlement of 100000 kobo (1000 naira) arriving
when `org1` has only 600 naira pending increases `settledBalance` by 600
(the min), not by the settlement amount 1000 the claim states — and no
WithdrawalRequest exists anywhere on this path. -/
theorem c6_counterexample :
    ((processOneSettlement dbSet sBig).1.wallets ("org1")).settledBalance
        = (dbSet.wallets ("org1")).settledBalance + 600
    ∧ ¬ (((processOneSettlement dbSet sBig).1.wallets ("org1")).settledBalance
        = (dbSet.wallets ("org1")).settledBalance + (sBig.totalAmount : ℚ) / 100) := by
  constructor
  · norm_num [processOneSettlement, settleCommit, dbSet, sBig, initDB,
      isSettlementFor, min_def]
    simp
  · norm_num [processOneSettlement, settleCommit, dbSet, sBig, initDB,
      isSettlementFor, min_def]
    simp

/-- C6 amended: for a confirmed settlement matched through the
subaccount→organizer mapping and not yet processed, one atomic transaction
decrements `pendingBalance` by `min(pendingBalance, settlementAmount)`,
increments `settledBalance` by that same min (not by the full settlement
amount), and appends the settlement ledger entry; no WithdrawalRequest is
involved.  A settlement that is not a confirmed payout (status not
`"success"` or no `paid_at`, `server.js:575`), lacks a subaccount code, is
already processed, or has an unmapped subaccount is skipped with no state
change, and the admin endpoint still answers 200. -/
theorem c6_settlement_amended (db : DB) (s : Settlement) :
    (∀ subCode orgId, s.status = "success" → s.paidAt ≠ none →
      s.subaccountCode = some subCode →
      (db.ledger.any (isSettlementFor (toString s.id))) = false →
      db.subaccounts subCode = some orgId →
      ((processOneSettlement db s).1.wallets orgId).pendingBalance
          = (db.wallets orgId).pendingBalance
            - min ((db.wallets orgId).pendingBalance) ((s.totalAmount : ℚ) / 100)
      ∧ ((processOneSettlement db s).1.wallets orgId).settledBalance
          = (db.wallets orgId).settledBalance
            + min ((db.wallets orgId).pendingBalance) ((s.totalAmount : ℚ) / 100)
      ∧ (processOneSettlement db s).1.ledger
          = db.ledger ++ [LedgerEntry.settlement orgId (toString s.id)
              (min ((db.wallets orgId).pendingBalance) ((s.totalAmount : ℚ) / 100))
              ((s.totalAmount : ℚ) / 100)]
      ∧ (processOneSettlement db s).2 = true)
    ∧ ((s.status ≠ "success" ∨ s.paidAt = none) →
        processOneSettlement db s = (db, false))
    ∧ (s.subaccountCode = none → processOneSettlement db s = (db, false))
    ∧ (∀ subCode, s.subaccountCode = some subCode →
        db.subaccounts subCode = none → processOneSettlement db s = (db, false))
    ∧ ((db.ledger.any (isSettlementFor (toString s.id))) = true →
        processOneSettlement db s = (db, false))
    ∧ (∀ ss, (settlementsEndpoint db true ss).2 = 200) := by
  refine ⟨?_, ?_, ?_, ?_, ?_, ?_⟩
  · intro subCode orgId hst hp hsub hnew hmap
    have hc := processOneSettlement_commit db s subCode orgId hst hp hsub hnew hmap
    rw [hc]
    refine ⟨?_, ?_, ?_, rfl⟩
    · rw [settleCommit_wallets_org]
    · rw [settleCommit_wallets_org]
    · exact settleCommit_ledger db s orgId
  · intro hguard
    simp [processOneSettlement, hguard]
  · intro hsub
    by_cases hguard : s.status ≠ "success" ∨ s.paidAt = none
    · simp [processOneSettlement, hguard]
    · simp [processOneSettlement, hguard, hsub]
  · intro subCode hsub hmap
    by_cases hguard : s.status ≠ "success" ∨ s.paidAt = none
    · simp [processOneSettlement, hguard]
    · cases hnew : db.ledger.any (isSettlementFor (toString s.id)) with
      | true => simp [processOneSettlement, hguard, hsub, hnew]
      | false => simp [processOneSettlement, hguard, hsub, hnew, hmap]
  · intro hproc
    by_cases hguard : s.status ≠ "success" ∨ s.paidAt = none
    · simp [processOneSettlement, hguard]
    · rcases hsub : s.subaccountCode with _ | subCode
      · simp [processOneSettlement, hguard, hsub]
      · simp [processOneSettlement, hguard, hsub, hproc]
  · intro ss
    simp [settlementsEndpoint]

/-- C6 witness: the concrete settlement `sBig` against `dbSet` (600 naira
pending): pending drops by the min and settled rises by the min. -/
theorem c6_witness :
    ((processOneSettlement dbSet sBig).1.wallets ("org1")).pendingBalance
        = (dbSet.wallets ("org1")).pendingBalance
          - min ((dbSet.wallets ("org1")).pendingBalance) ((sBig.totalAmount : ℚ) / 100)
    ∧ ((processOneSettlement dbSet sBig).1.wallets ("org1")).settledBalance
        = (dbSet.wallets ("org1")).settledBalance
          + min ((dbSet.wallets ("org1")).pendingBalance) ((sBig.totalAmount : ℚ) / 100) := by
  have h := (c6_settlement_amended dbSet sBig).1 "sub1" "org1" rfl (by decide)
    rfl (by decide) (by decide)
  exact ⟨h.1, h.2.1⟩

/-- C7: settlement conservation — after processing a matched settlement the
pending balance is never negative, the settled balance increases by exactly
`min(pendingBalance_before, settlementAmount)`, the appended ledger entry
records both the settled min (`amount`) and the full settlement
(`grossAmount`) so the excess is visible, and re-processing the same
settlement is a no-op (no double counting). -/
theorem c7_settlement_conservation (db : DB) (s : Settlement)
    (subCode orgId : String)
    (hst : s.status = "success") (hp : s.paidAt ≠ none)
    (hsub : s.subaccountCode = some subCode)
    (hnew : (db.ledger.any (isSettlementFor (toString s.id))) = false)
    (hmap : db.subaccounts subCode = some orgId) :
    0 ≤ ((processOneSettlement db s).1.wallets orgId).pendingBalance
    ∧ ((processOneSettlement db s).1.wallets orgId).settledBalance
        = (db.wallets orgId).settledBalance
          + min ((db.wallets orgId).pendingBalance) ((s.totalAmount : ℚ) / 100)
    ∧ (∃ e, (processOneSettlement db s).1.ledger = db.ledger ++ [e]
        ∧ e = LedgerEntry.settlement orgId (toString s.id)
            (min ((db.wallets orgId).pendingBalance) ((s.totalAmount : ℚ) / 100))
            ((s.totalAmount : ℚ) / 100))
    ∧ processOneSettlement ((processOneSettlement db s).1) s
        = ((processOneSettlement db s).1, false) := by
  have hc := processOneSettlement_commit db s subCode orgId hst hp hsub hnew hmap
  refine ⟨?_, ?_, ?_, ?_⟩
  · rw [hc, settleCommit_wallets_org]
    exact sub_nonneg.mpr (min_le_left _ _)
  · rw [hc, settleCommit_wallets_org]
  · rw [hc]
    exact ⟨_, settleCommit_ledger db s orgId, rfl⟩
  · rw [hc]
    have hdup2 : ((settleCommit db s orgId).ledger.any
        (isSettlementFor (toString s.id))) = true := by
      rw [settleCommit_ledger, List.any_append]
      simp [isSettlementFor]
    by_cases hguard : s.status ≠ "success" ∨ s.paidAt = none
    · exact absurd hguard (by simp [hst, hp])
    · simp [processOneSettlement, hguard, hsub, hdup2]

/-- C7 witness: settlement 100000 kobo against 600 naira pending — pending
stays non-negative and settled gains exactly the min. -/
theorem c7_witness :
    0 ≤ ((processOneSettlement dbSet sBig).1.wallets ("org1")).pendingBalance
    ∧ ((processOneSettlement dbSet sBig).1.wallets ("org1")).settledBalance
        = (dbSet.wallets ("org1")).settledBalance
          + min ((dbSet.wallets ("org1")).pendingBalance)
              ((sBig.totalAmount : ℚ) / 100)
    ∧ processOneSettlement ((processOneSettlement dbSet sBig).1) sBig
        = ((processOneSettlement dbSet sBig).1, false) := by
  have h := c7_settlement_conservation dbSet sBig "sub1" "org1" rfl (by decide)
    rfl (by decide) (by decide)
  exact ⟨h.1, h.2.1, h.2.2.2⟩

/-- C8 counterexample: the `ticket_sale` ledger append is a separate store
call *after* the committed transaction (`server.js:377-387`); when it
fails (`catch` at `server.js:540`), the organizer wallet is already
credited (4600 naira pending) while the ledger has gained nothing, so the
balances can no longer be recomputed from the ledger — and the retry is
short-circuited by the duplicate check, so this wallet change never gets
its ledger entry. -/
theorem c8_counterexample :
    ¬ WalletsMatchLedger
        (processChargeFallible dbEx chargeEx "q" true
          PostCommitFate.ledgerAddFailed).1
    ∧ (processChargeFallible dbEx chargeEx "q" true
        PostCommitFate.ledgerAddFailed).1.ledger = dbEx.ledger
    ∧ ((processChargeFallible dbEx chargeEx "q" true
        PostCommitFate.ledgerAddFailed).1.wallets ("org1")).pendingBalance
      ≠ ((dbEx.wallets ("org1"))).pendingBalance := by
  have hrun := processChargeFallible_ledgerAddFailed dbEx chargeEx metaEx "e1"
    evEx "q" rfl rfl (by decide) (by decide)
  have hrun1 : (processChargeFallible dbEx chargeEx "q" true
      PostCommitFate.ledgerAddFailed).1
      = attachQr (chargeTxn dbEx chargeEx metaEx "e1" evEx) dbEx.nextTicketId "q" := by
    rw [hrun]
  have hpend : ((processChargeFallible dbEx chargeEx "q" true
      PostCommitFate.ledgerAddFailed).1.wallets ("org1")).pendingBalance = 4600 := by
    rw [hrun1, attachQr_wallets]
    norm_num [chargeTxn, dbEx, initDB, evEx, chargeEx, organizerAmount,
      platformFee, toFixed2, paidAmount, round_eq]
  have hled : (processChargeFallible dbEx chargeEx "q" true
      PostCommitFate.ledgerAddFailed).1.ledger = dbEx.ledger := by
    rw [hrun1, attachQr_ledger, chargeTxn_ledger]
  refine ⟨?_, hled, ?_⟩
  · intro hW
    have h1 := (hW "org1").1
    rw [hpend, hled] at h1
    have hnil : dbEx.ledger = [] := rfl
    rw [hnil] at h1
    simp [sumBy] at h1
  · rw [hpend]
    norm_num [dbEx, initDB]

/-- C8 amended: the audit ledger is append-only under every run, including
charge deliveries whose post-commit calls fail (`StepF`): no entry is ever
updated or deleted.  Every *completed* financial mutation appends exactly
one ledger entry, and in every state reachable by completed operations
each wallet's balances are recomputable from the ledger alone
(`WalletsMatchLedger`).  Settlements and platform withdrawals write their
entry inside the transaction and cannot drift; the charge path appends its
`ticket_sale` entry only after commit, and a failure there leaves credited
wallets with no entry (see the counterexample). -/
theorem c8_amended :
    (∀ db db', StepF db db' → ∃ es, db'.ledger = db.ledger ++ es)
    ∧ (∀ db db', Step db db' → db'.wallets ≠ db.wallets →
        ∃ e, db'.ledger = db.ledger ++ [e])
    ∧ (∀ db, Reachable db → WalletsMatchLedger db) := by
  refine ⟨?_, ?_, fun db h => (reachable_inv db h).2⟩
  · intro db db' st
    cases st with
    | charge d q c f =>
      rcases processChargeFallible_cases db d q c f with
        hc | ⟨md, eid, ev, hm, he, hdup, hev, hcomm, hfate⟩
      · exact ⟨[], by rw [hc, List.append_nil]⟩
      · rcases hfate with hc | hc | hc
        · exact ⟨[], by rw [hc, chargeTxn_ledger, List.append_nil]⟩
        · exact ⟨[], by rw [hc, attachQr_ledger, chargeTxn_ledger, List.append_nil]⟩
        · exact ⟨[saleEntryOf d eid ev], by rw [hc, chargeCommitState_ledger]⟩
    | settle s =>
      rcases processOneSettlement_cases db s with hc | ⟨sc, org, hsub, hmap, hc⟩
      · exact ⟨[], by rw [hc, List.append_nil]⟩
      · refine ⟨[LedgerEntry.settlement org (toString s.id)
          (min ((db.wallets org).pendingBalance) ((s.totalAmount : ℚ) / 100))
          ((s.totalAmount : ℚ) / 100)], ?_⟩
        have hc1 : (processOneSettlement db s).1 = settleCommit db s org := by
          rw [hc]
        rw [hc1, settleCommit_ledger]
    | withdraw uid adm amt =>
      rcases adminWithdraw_cases db uid adm amt with hc | hc
      · exact ⟨[], by rw [hc, List.append_nil]⟩
      · refine ⟨[LedgerEntry.platformWithdrawal amt uid], ?_⟩
        have hc1 : (adminWithdraw db uid adm amt).1 = withdrawCommit db uid amt := by
          rw [hc]
        rw [hc1, withdrawCommit_ledger]
    | newEvent eid ev hne => exact ⟨[], by rw [List.append_nil]⟩
    | newSubaccount code orgId => exact ⟨[], by rw [List.append_nil]⟩
  · intro db db' st hne
    cases st with
    | charge d q c =>
      rcases processChargeRun_cases db d q c with
        hc | ⟨md, eid, ev, hm, he, hdup, hev, hcomm, hc⟩
      · exact absurd (by rw [hc]) hne
      · exact ⟨saleEntryOf d eid ev, by rw [hc, chargeCommitState_ledger]⟩
    | settle s =>
      rcases processOneSettlement_cases db s with hc | ⟨sc, org, hsub, hmap, hc⟩
      · exact absurd (by rw [hc]) hne
      · refine ⟨LedgerEntry.settlement org (toString s.id)
          (min ((db.wallets org).pendingBalance) ((s.totalAmount : ℚ) / 100))
          ((s.totalAmount : ℚ) / 100), ?_⟩
        have hc1 : (processOneSettlement db s).1 = settleCommit db s org := by
          rw [hc]
        rw [hc1, settleCommit_ledger]
    | withdraw uid adm amt =>
      rcases adminWithdraw_cases db uid adm amt with hc | hc
      · exact absurd (by rw [hc]) hne
      · refine ⟨LedgerEntry.platformWithdrawal amt uid, ?_⟩
        have hc1 : (adminWithdraw db uid adm amt).1 = withdrawCommit db uid amt := by
          rw [hc]
        rw [hc1, withdrawCommit_ledger]
    | newEvent eid ev hne2 => exact absurd rfl hne
    | newSubaccount code orgId => exact absurd rfl hne

/-- C8 witness: the pristine state reconciles (all balances equal the
empty ledger sums), and even a charge delivery whose post-commit ledger
append fails only ever appends to the ledger. -/
theorem c8_amended_witness :
    WalletsMatchLedger initDB
    ∧ (∃ es, ((processChargeFallible dbEx chargeEx "q" true
        PostCommitFate.ledgerAddFailed).1).ledger = dbEx.ledger ++ es) :=
  ⟨c8_amended.2.2 initDB Reachable.init,
   c8_amended.1 dbEx _
     (StepF.charge chargeEx "q" true PostCommitFate.ledgerAddFailed)⟩

/-- C9: a webhook request whose signature header differs from the
HMAC-SHA512 hex digest of the raw body under the server secret is answered
401 with no state change and no further processing, for every HMAC
function, parser, body and state. -/
theorem c9_signature_gate (hmac : String → String → String)
    (parse : String → Option Payload)
    (secret rawBody signature qrImage : String) (commit : Bool) (db : DB)
    (h : hmac secret rawBody ≠ signature) :
    paystackWebhook hmac parse secret rawBody signature qrImage commit db
      = (db, 401) := by
  unfold paystackWebhook
  rw [if_pos h]

/-- C9 witness: a concrete mismatched signature is rejected with 401 and an
untouched store. -/
theorem c9_witness :
    hmacEx "sec" "body" ≠ "bad"
    ∧ paystackWebhook hmacEx parseEx "sec" "body" "bad" "q" true dbEx
        = (dbEx, 401) :=
  ⟨by decide, c9_signature_gate hmacEx parseEx "sec" "body" "bad" "q" true dbEx
    (by decide)⟩

/-- C10: a correctly signed `charge.success` whose `metadata.eventId` names
no existing event document is acknowledged with 200 and changes nothing:
no ticket, no wallet credit, no ledger entry. -/
theorem c10_event_not_found (hmac : String → String → String)
    (parse : String → Option Payload)
    (secret rawBody signature qrImage : String) (commit : Bool) (db : DB)
    (d : ChargeData) (md : Meta) (eid : String)
    (hsig : hmac secret rawBody = signature)
    (hparse : parse rawBody = some (Payload.chargeSuccess d))
    (hm : d.metadata = some md) (he : md.eventId = some eid)
    (hev : db.events eid = none) :
    paystackWebhook hmac parse secret rawBody signature qrImage commit db
      = (db, 200) := by
  unfold paystackWebhook
  rw [if_neg (fun hne => hne hsig), hparse]
  cases hdup : (db.tickets.any fun t => t.reference == d.reference) with
  | true => exact processChargeRun_dup db d md eid qrImage commit hm he hdup
  | false => simp [processChargeRun, hm, he, hdup, hev]

/-- C10 witness: the signed `chargeNoEvent` payload (event id `ghost` with
no document) is acknowledged 200 and the store is untouched. -/
theorem c10_witness :
    dbEx.events ("ghost") = none
    ∧ paystackWebhook hmacEx parseNoEvent "sec" "body" "digest" "q" true dbEx
        = (dbEx, 200) :=
  ⟨by decide,
   c10_event_not_found hmacEx parseNoEvent "sec" "body" "digest" "q" true dbEx
     chargeNoEvent { eventId := some "ghost", ticketNumber := 1 } "ghost"
     rfl rfl rfl rfl (by decide)⟩
